import Mathlib

/-!
Shallow embedding of the agent-matching RAG service (`app.py`, `processor.py`).

Text is modeled as `List Char`.  Python `str.lower()` is modeled as a
character-wise map (`Char.toLower`, ASCII range); `str.splitlines()`,
`str.strip()`, `"\n".join`, slicing, and substring search (`in`, `find`,
`rfind`) are modeled directly on character lists.  External collaborators
(the JSON decoder, the embedding model, the LLM call) are parameters of the
embedded functions; everything else is translated from the source.
-/

namespace RagSpec

/-- Python `str.lower()`, modeled as a character-wise map (ASCII range). -/
def pyLower (s : List Char) : List Char := s.map Char.toLower

/-- Line-break characters recognized by Python `str.splitlines()`. -/
def isLineBreakChar (c : Char) : Bool :=
  c = '\n' || c = '\r' || c = '\x0b' || c = '\x0c' ||
  c = '\x1c' || c = '\x1d' || c = '\x1e' || c = '\x85' || c = '\u2028' || c = '\u2029'

/-- Worker for `pySplitlines`: `acc` holds the current (reversed) line; a
`\r\n` pair consumes the following `\n`; a trailing break closes the current
line without opening an empty one. -/
def pySplitlinesGo : List Char → List Char → List (List Char)
  | [], acc => [acc.reverse]
  | c :: rest, acc =>
    if isLineBreakChar c then
      if c = '\r' ∧ rest.head? = some '\n' then
        match rest with
        | [] => [acc.reverse]
        | _ :: rest2 =>
          if rest2.isEmpty then [acc.reverse]
          else acc.reverse :: pySplitlinesGo rest2 []
      else
        if rest.isEmpty then [acc.reverse]
        else acc.reverse :: pySplitlinesGo rest []
    else
      pySplitlinesGo rest (c :: acc)

/-- Python `str.splitlines()`: split on line-break characters, pairing
`\r\n`, with no trailing empty line for a trailing break. -/
def pySplitlines : List Char → List (List Char)
  | [] => []
  | c :: rest => pySplitlinesGo (c :: rest) []

/-- Python `"\n".join(lines)`. -/
def joinLines : List (List Char) → List Char
  | [] => []
  | [l] => l
  | l :: l2 :: rest => l ++ '\n' :: joinLines (l2 :: rest)

/-- Whitespace characters stripped by Python `str.strip()` (common subset). -/
def isPySpace (c : Char) : Bool :=
  c = ' ' || c = '\t' || c = '\n' || c = '\r' || c = '\x0b' || c = '\x0c' ||
  c = '\x1c' || c = '\x1d' || c = '\x1e' || c = '\x85'

/-- Python `str.strip()`: drop whitespace from both ends. -/
def pyStrip (s : List Char) : List Char :=
  ((s.dropWhile isPySpace).reverse.dropWhile isPySpace).reverse

/-- The fixed catalog of 8 agent codes (`AGENT_DEFINITIONS` keys in `app.py`). -/
inductive Agent where
  | HYPE | STRIKE | CARE | VISION | FLOW | ASSET | TEAM | CODE
deriving DecidableEq, Repr

/-- Keys of the `AGENT_DEFINITIONS` dict in `app.py` (the values are long
prompt strings that do not affect control flow). -/
def AGENT_CODES : List (List Char) :=
  ["HYPE".data, "STRIKE".data, "CARE".data, "VISION".data,
   "FLOW".data, "ASSET".data, "TEAM".data, "CODE".data]

/-- Resolve an agent-name string against the catalog (`agent_name in AGENT_DEFINITIONS`). -/
def toAgent (s : List Char) : Option Agent :=
  if s = "HYPE".data then some .HYPE
  else if s = "STRIKE".data then some .STRIKE
  else if s = "CARE".data then some .CARE
  else if s = "VISION".data then some .VISION
  else if s = "FLOW".data then some .FLOW
  else if s = "ASSET".data then some .ASSET
  else if s = "TEAM".data then some .TEAM
  else if s = "CODE".data then some .CODE
  else none

/-- The `FORBIDDEN_BY_AGENT` table from `app.py`. -/
def FORBIDDEN_BY_AGENT : Agent → List (List Char)
  | .HYPE =>
    ["reconciliation".data, "invoice".data, "insurance form".data, "claims".data,
     "ar/ap".data, "cash flow".data, "24/7".data, "chatbot".data, "ticket".data,
     "knowledge base".data, "emr extraction".data, "data platform".data]
  | .STRIKE =>
    ["reconciliation".data, "invoice".data, "insurance form".data, "claims".data,
     "ar/ap".data, "cash flow".data, "24/7".data, "chatbot".data, "feedback".data,
     "knowledge base".data, "emr extraction".data, "data platform".data]
  | .CARE =>
    ["reconciliation".data, "invoice".data, "insurance form".data, "claims".data,
     "ar/ap".data, "cash flow".data, "pipeline".data, "proposal".data,
     "ab testing".data, "emr extraction".data, "data platform".data]
  | .VISION =>
    ["reconciliation".data, "invoice".data, "insurance form".data, "claims".data,
     "ar/ap".data, "24/7".data, "chatbot".data, "feedback".data,
     "onboarding (hr)".data, "emr extraction".data, "data platform ownership".data]
  | .FLOW =>
    ["reconciliation".data, "invoice".data, "insurance form".data, "claims".data,
     "24/7".data, "chatbot".data, "feedback".data, "emr extraction".data]
  | .ASSET =>
    ["24/7".data, "after-hours".data, "chatbot".data, "feedback".data,
     "knowledge base".data, "pipeline".data, "ab testing".data, "data platform".data,
     "emr extraction".data, "unified data platform".data]
  | .TEAM =>
    ["reconciliation".data, "invoice".data, "insurance form".data, "claims".data,
     "ar/ap".data, "24/7".data, "chatbot".data, "ab testing".data, "pipeline".data,
     "data platform".data, "emr extraction".data]
  | .CODE =>
    ["reconciliation".data, "invoice".data, "insurance form".data, "claims".data,
     "ar/ap".data, "24/7".data, "chatbot".data, "feedback".data, "collections".data]

/-- Lexicographic comparison of strings by code point (Python `sorted` order). -/
def lexLe : List Char → List Char → Bool
  | [], _ => true
  | _ :: _, [] => false
  | a :: s, b :: t => if a = b then lexLe s t else decide (a < b)

/-- Insertion of a string into a `lexLe`-sorted list (helper for `pySorted`). -/
def insertSorted (x : List Char) : List (List Char) → List (List Char)
  | [] => [x]
  | y :: ys => if lexLe x y then x :: y :: ys else y :: insertSorted x ys

/-- Python `sorted` on a list of strings: ascending lexicographic insertion
sort. -/
def pySorted (ls : List (List Char)) : List (List Char) :=
  ls.foldr insertSorted []

/-- `find_violations` from `app.py`: the sorted set of forbidden terms of
`agent` occurring (as substrings) in the lowercased text. -/
def find_violations (agent : Agent) (text : List Char) : List (List Char) :=
  pySorted (((FORBIDDEN_BY_AGENT agent).filter
      (fun term => decide (term <:+: pyLower text))).dedup)

/-- `remove_forbidden_lines` from `app.py`: delete any line containing a
forbidden term; returns the kept text (joined and stripped) and the removed lines. -/
def remove_forbidden_lines (agent : Agent) (text : List Char) :
    List Char × List (List Char) :=
  let forb := (FORBIDDEN_BY_AGENT agent).map pyLower
  let lines := pySplitlines text
  let kept := lines.filter (fun ln => !(forb.any (fun term => decide (term <:+: pyLower ln))))
  let removed := lines.filter (fun ln => forb.any (fun term => decide (term <:+: pyLower ln)))
  (pyStrip (joinLines kept), removed)

/-- Index of the first occurrence of `pat` as a substring of the second
argument (helper for the regex model in `strip_meta`). -/
def findSub (pat : List Char) : List Char → Option Nat
  | [] => if pat <+: ([] : List Char) then some 0 else none
  | c :: t => if pat <+: (c :: t) then some 0 else (findSub pat t).map (· + 1)

/-- The fence marker matched by the code-fence regex in `strip_meta`. -/
def fence : List Char := "```".data

/-- Removal of fenced code blocks: models `re.sub` with a non-greedy
fence-to-fence pattern and `re.S` — repeatedly delete from the leftmost
fence to the next fence after it, leaving an unclosed fence in place. -/
def stripFences (s : List Char) : List Char :=
  match h1 : findSub fence s with
  | none => s
  | some i =>
    match h2 : findSub fence (s.drop (i + 3)) with
    | none => s
    | some j => s.take i ++ stripFences ((s.drop (i + 3)).drop (j + 3))
termination_by s.length
decreasing_by
  have hb : ∀ (pat t : List Char) (k : Nat), findSub pat t = some k → pat.length ≤ t.length := by
    intro pat t
    induction t with
    | nil =>
      intro k h
      simp only [findSub] at h
      split at h
      · rename_i hp
        simpa using hp.length_le
      · exact absurd h (by simp)
    | cons c t ih =>
      intro k h
      simp only [findSub] at h
      split at h
      · rename_i hp
        exact hp.length_le
      · rcases Option.map_eq_some'.mp h with ⟨k', hk', _⟩
        exact Nat.le_trans (ih k' hk') (by simp)
  have h3 : (3 : Nat) ≤ s.length := by
    have := hb fence s i h1
    simpa [fence] using this
  simp only [List.length_drop]
  omega

/-- `strip_meta` from `app.py`: remove fenced code blocks, drop `sources:`
lines and stray fence lines, and strip the result. -/
def strip_meta (text : List Char) : List Char :=
  let t := stripFences text
  let lines := (pySplitlines t).filter (fun ln =>
    !(decide (("sources:".data) <+: pyLower (pyStrip ln))) &&
    !(decide (fence <+: pyStrip ln)))
  pyStrip (joinLines lines)

/-- Python `text.find(ch)`: index of the first occurrence (`none` for -1). -/
def pyFind (s : List Char) (ch : Char) : Option Nat :=
  s.findIdx? (fun c => c = ch)

/-- Python `text.rfind(ch)`: index of the last occurrence (`none` for -1). -/
def pyRFind (s : List Char) (ch : Char) : Option Nat :=
  (s.reverse.findIdx? (fun c => c = ch)).map (fun k => s.length - 1 - k)

/-- Python slicing `s[a:b]` for nonnegative bounds. -/
def pySlice (s : List Char) (a b : Nat) : List Char := (s.take b).drop a

/-- JSON values (model of the Python `json` module's parse results). -/
inductive Json where
  | null
  | bool (b : Bool)
  | num (q : ℚ)
  | str (s : List Char)
  | arr (elems : List Json)
  | obj (fields : List (List Char × Json))

/-- Python truthiness of a decoded JSON value. -/
def jsonTruthy : Json → Bool
  | .null => false
  | .bool b => b
  | .num q => decide (q ≠ 0)
  | .str s => !s.isEmpty
  | .arr xs => !xs.isEmpty
  | .obj fs => !fs.isEmpty

/-- `_safe_json_extract` from `app.py`.  `loads` is the external `json.loads`;
`none` models a decode exception.  On direct-decode failure the substring
from the first brace to the last brace is decoded; if that also fails (or no
such substring exists) the result is `none`, never an exception. -/
def safe_json_extract (loads : List Char → Option Json) (text : List Char) :
    Option Json :=
  match loads text with
  | some v => some v
  | none =>
    match pyFind text '\x7b', pyRFind text '\x7d' with
    | some s, some e => if s < e then loads (pySlice text s (e + 1)) else none
    | _, _ => none

/-- The `X or {}` guard applied to the extraction result in `match_agents`. -/
def orEmptyObj (r : Option Json) : Json :=
  match r with
  | none => Json.obj []
  | some v => if jsonTruthy v then v else Json.obj []

/-- `parsed.get(key, []) or []` as used in `match_agents`. -/
def getListField (fields : List (List Char × Json)) (key : List Char) : Json :=
  let v := (fields.lookup key).getD (Json.arr [])
  if jsonTruthy v then v else Json.arr []

/-- `parsed.get(key, {}) or {}` as used in `match_agents`. -/
def getObjField (fields : List (List Char × Json)) (key : List Char) : Json :=
  let v := (fields.lookup key).getD (Json.obj [])
  if jsonTruthy v then v else Json.obj []

/-- One entry of the `index_cache` session store.  Keys that are only added
by the post-classification `update` call are `Option`s (`none` = key absent,
i.e. a partial entry). -/
structure CacheEntry where
  index : Nat
  transcript_path : List Char
  agent_path : List Char
  company_info : List Char
  save_dir : Option (List Char) := none
  pain_points : Option Json := none
  matched_agents : Option Json := none
  rationale : Option Json := none

/-- The session store `index_cache`, keyed by session id. -/
def Store := List Char → Option CacheEntry

/-- The empty session store. -/
def Store.empty : Store := fun _ => none

/-- Assignment `index_cache[session_id] = entry`. -/
def Store.insert (st : Store) (k : List Char) (v : CacheEntry) : Store :=
  fun q => if q = k then some v else st q

/-- The save directory `/tmp/faiss_{session_id}`. -/
def saveDirFor (session_id : List Char) : List Char := "/tmp/faiss_".data ++ session_id

/-- Response of the `/match_agents` route (shape only). -/
inductive MatchResponse where
  | ok (session_id : List Char) (pain_points matched_agents rationale : Json)
      (raw : List Char)
  | serverError

/-- The `/match_agents` handler from `app.py`.  External effects are
parameters: `buildOutcome` is the index handle produced by the steps through
`build_faiss_index` (`none` = one of them raised), `saveOk` tells whether
`index.save_local` succeeded (its exception is swallowed), `ragOutcome` is
the classifier round trip (`none` = it raised), and `loads` is the JSON
decoder.  The cache entry is written before the classifier call, exactly as
in the source. -/
def match_agents (store : Store) (session_id : List Char)
    (transcript_path agent_path company_info : List Char)
    (buildOutcome : Option Nat) (saveOk : Bool)
    (ragOutcome : Option (List Char))
    (loads : List Char → Option Json) : Store × MatchResponse :=
  match buildOutcome with
  | none => (store, .serverError)
  | some idx =>
    let entry0 : CacheEntry :=
      { index := idx, transcript_path := transcript_path,
        agent_path := agent_path, company_info := company_info }
    let entry1 :=
      if saveOk then { entry0 with save_dir := some (saveDirFor session_id) }
      else entry0
    let store1 := store.insert session_id entry1
    match ragOutcome with
    | none => (store1, .serverError)
    | some result_text =>
      match orEmptyObj (safe_json_extract loads result_text) with
      | .obj fields =>
        let pain_points := getListField fields "pain_points".data
        let matched_agents := getListField fields "agents".data
        let rationale := getObjField fields "rationale".data
        let entry2 :=
          { entry1 with
            pain_points := some pain_points,
            matched_agents := some matched_agents,
            rationale := some rationale }
        (store1.insert session_id entry2,
         .ok session_id pain_points matched_agents rationale result_text)
      | _ => (store1, .serverError)

/-- Response of the `/generate_agent_module` route. -/
inductive GenResult where
  | module (text : List Char)
  | clientError (msg : List Char)
  | serverError
deriving DecidableEq

/-- The fixed sentinel from `generate_agent_module`. -/
def safe_empty : List Char :=
  "No relevant outcomes for this agent given the pains.".data

/-- The `/generate_agent_module` handler from `app.py`.  `cached` is the
session-store lookup, `savedDirExists` is `os.path.isdir(save_dir)`,
`ragResult` is the LLM round trip for the generation query.  The cache-miss
recovery branch calls `load_faiss_index`, which `processor.py` never defines
(see `processor_def_names`), so it raises instead of restoring the session.
`force` and `reqPainPoints` are read from the request; `force` is never used
by the code, and `reqPainPoints` only feeds the prompt text. -/
def generate_agent_module (cached : Option CacheEntry) (savedDirExists : Bool)
    (agent_name : List Char) (reqPainPoints : Option Json) (force : Bool)
    (ragResult : List Char) : GenResult :=
  match cached, savedDirExists with
  | none, true => .serverError
  | none, false => .clientError "No index found for session.".data
  | some _, _ =>
    match toAgent agent_name with
    | none => .clientError ("Invalid agent name: ".data ++ agent_name)
    | some agent =>
      let result := strip_meta ragResult
      if pyStrip result = safe_empty then .module []
      else
        let cleaned := (remove_forbidden_lines agent result).1
        if !(find_violations agent cleaned).isEmpty then .module []
        else .module cleaned

/-- Names bound by `def` in `processor.py`. -/
def processor_def_names : List String :=
  ["is_playbook", "extract_agents_from_text", "load_all_documents",
   "split_into_chunks", "build_faiss_index", "rag_chain"]

/-- Names `app.py` imports from `processor` (line 2 of `app.py`). -/
def app_processor_import_names : List String :=
  ["load_all_documents", "split_into_chunks", "build_faiss_index",
   "load_faiss_index", "rag_chain"]

/-- A LangChain `Document` as built by `split_into_chunks` (content plus the
metadata fields the code reads). -/
structure Doc where
  page_content : List Char
  title : List Char
  source : List Char
  type : List Char
deriving DecidableEq, Repr

/-- A section record as assembled in `load_all_documents` / `match_agents`. -/
structure DocSection where
  title : List Char
  text : List Char
  source : List Char
  type : List Char

/-- The company-info section appended by `match_agents` when `company_info`
is nonempty (`app.py` line 158). -/
def companySection (company_info : List Char) : DocSection :=
  { title := "Company Info".data, text := company_info,
    source := "web_summary".data, type := "company".data }

/-- `split_into_chunks` from `processor.py`.  The recursive character
splitter is an external collaborator, passed as `splitText`; each chunk
inherits the metadata of its section. -/
def split_into_chunks (splitText : List Char → List (List Char))
    (sections : List DocSection) : List Doc :=
  sections.flatMap (fun sec =>
    (splitText ((sec.text).map (fun c => if c = '\n' then ' ' else c))).map
      (fun chunk => { page_content := chunk, title := sec.title,
                      source := sec.source, type := sec.type }))

/-- The document-selection step of `rag_chain` in `processor.py`: partition
the ranked similarity results by type and take the per-role quotas,
transcripts first (`all_docs` is the ranked output of
`vectorstore.similarity_search(query, k=80)`). -/
def rag_selected (all_docs : List Doc) : List Doc :=
  let transcript_docs := all_docs.filter (fun d => decide (d.type = "transcript".data))
  let agent_docs := all_docs.filter (fun d => decide (d.type = "agent".data))
  transcript_docs.take 30 ++ agent_docs.take 10

/-- Modelled from the spec: the per-agent `EligibilityRecord` of the
Guardrail Engine (spec section 3).  No Guardrail Engine code exists under
`src/`; these definitions follow the words of the spec. -/
structure EligibilityRecord where
  eligible : Bool
  reason : List Char
  evidence : List (List Char)
  confidence : ℚ
  exclusion_reason : List Char

/-- Modelled from the spec: the fixed explanatory string written by the
evidence-threshold rule (spec section 4.4 rule 1 names no concrete text). -/
def lowEvidenceReason : List Char :=
  "Insufficient evidence: fewer than 2 evidence snippets.".data

/-- Modelled from the spec: Guardrail rule 1 (evidence threshold), spec
section 4.4.  For each agent of the low-priority list marked eligible with
fewer than 2 evidence snippets, force ineligibility and overwrite the
reason; all other records pass through unchanged. -/
def applyEvidenceThreshold (low_priority : List Agent)
    (elig : Agent → EligibilityRecord) : Agent → EligibilityRecord :=
  fun a =>
    let r := elig a
    if a ∈ low_priority ∧ r.eligible = true ∧ r.evidence.length < 2 then
      { r with eligible := false, reason := lowEvidenceReason }
    else r

/-- Modelled from the spec: rounding to 3 decimal places (spec section 4.4
rule 4). -/
def round3 (q : ℚ) : ℚ := (round (q * 1000) : ℚ) / 1000

/-- Modelled from the spec: Guardrail rule 4 (coverage scoring), spec
sections 3 and 4.4.  A pain point counts as covered when its mapping entry
lists at least one eligible agent; the score is 0 when there are no pain
points. -/
def coverage_score (pain_points : List (List Char))
    (mapping : List Char → List Agent)
    (elig : Agent → EligibilityRecord) : ℚ :=
  if pain_points.isEmpty then 0
  else
    round3 ((pain_points.countP
        (fun p => (mapping p).any (fun a => (elig a).eligible)) : ℚ) /
      (pain_points.length : ℚ))

/-- Cache entry of a session whose matched agents are only CARE (used to
exhibit the missing eligibility gate of `generate_agent_module`). -/
def c3entry : CacheEntry :=
  { index := 0, transcript_path := [], agent_path := [], company_info := [],
    pain_points := some (Json.arr []),
    matched_agents := some (Json.arr [Json.str "CARE".data]),
    rationale := some (Json.obj []) }

/-- Classifier text of the parser scenario: prose wrapping a JSON record. -/
def c6raw : List Char :=
  "Here is the result: \x7b\"pain_points\": [], \"eligibility\": \x7b\x7d\x7d".data

/-- The record embedded in `c6raw`. -/
def c6parsed : Json :=
  Json.obj [("pain_points".data, Json.arr []), ("eligibility".data, Json.obj [])]

/-- A decoder accepting exactly the record embedded in `c6raw` (a full-text
decode of `c6raw` itself fails because of the surrounding prose). -/
def c6loads (t : List Char) : Option Json :=
  if t = "\x7b\"pain_points\": [], \"eligibility\": \x7b\x7d\x7d".data then some c6parsed
  else none

/-- A generation output whose forbidden-line filtering (for HYPE) leaves
exactly the sentinel: an invoice line followed by the sentinel line. -/
def c5badRag : List Char := "Invoice processing\n".data ++ safe_empty

/-- The entry `match_agents` writes before the classifier call (index,
paths, company info, possibly the save directory — no pain points, no
matched agents, no rationale). -/
def preRagEntry (idx : Nat) (tp ap ci sid : List Char) (saveOk : Bool) :
    CacheEntry :=
  if saveOk then
    { index := idx, transcript_path := tp, agent_path := ap,
      company_info := ci, save_dir := some (saveDirFor sid) }
  else
    { index := idx, transcript_path := tp, agent_path := ap,
      company_info := ci }

/-! Helper lemmas. -/

theorem prefix_of_append_cons {α : Type} {t x y : List α} {c : α}
    (h : t <+: x ++ c :: y) (hc : c ∉ t) : t <+: x := by
  induction t generalizing x with
  | nil => exact List.nil_prefix
  | cons a t ih =>
    cases x with
    | nil =>
      rw [List.nil_append, List.cons_prefix_cons] at h
      exact absurd (h.1 ▸ List.mem_cons_self a t) hc
    | cons b x =>
      rw [List.cons_append, List.cons_prefix_cons] at h
      have ht : t <+: x :=
        ih h.2 (fun hm => hc (List.mem_cons_of_mem a hm))
      exact List.cons_prefix_cons.mpr ⟨h.1, ht⟩

theorem infix_of_append_cons {α : Type} {t x y : List α} {c : α}
    (h : t <:+: x ++ c :: y) (hc : c ∉ t) : t <:+: x ∨ t <:+: y := by
  induction x with
  | nil =>
    rw [List.nil_append, List.infix_cons_iff] at h
    rcases h with h | h
    · rcases List.prefix_cons_iff.mp h with h0 | ⟨t', rfl, _⟩
      · exact Or.inl (h0 ▸ List.nil_infix)
      · exact absurd (List.mem_cons_self c t') hc
    · exact Or.inr h
  | cons b x ih =>
    rw [List.cons_append, List.infix_cons_iff] at h
    rcases h with h | h
    · rcases List.prefix_cons_iff.mp h with h0 | ⟨t', rfl, ht'⟩
      · exact Or.inl (h0 ▸ List.nil_infix)
      · have : t' <+: x :=
          prefix_of_append_cons ht' (fun hm => hc (List.mem_cons_of_mem b hm))
        exact Or.inl ((List.cons_prefix_cons.mpr ⟨rfl, this⟩).isInfix)
    · rcases ih h with h1 | h1
      · exact Or.inl (List.infix_cons h1)
      · exact Or.inr h1

theorem infix_of_joinLines {t : List Char} :
    ∀ {ls : List (List Char)}, t ≠ [] → '\n' ∉ t → t <:+: joinLines ls →
      ∃ l ∈ ls, t <:+: l := by
  intro ls
  induction ls with
  | nil =>
    intro hne _ h
    exact absurd (List.infix_nil.mp h) hne
  | cons l ls ih =>
    intro hne hnl h
    cases ls with
    | nil => exact ⟨l, List.mem_cons_self l [], h⟩
    | cons l2 rest =>
      rw [joinLines] at h
      rcases infix_of_append_cons h hnl with h1 | h1
      · exact ⟨l, List.mem_cons_self l _, h1⟩
      · rcases ih hne hnl h1 with ⟨l', hl', hinf⟩
        exact ⟨l', List.mem_cons_of_mem l hl', hinf⟩

theorem pyStrip_infix_self (s : List Char) : pyStrip s <:+: s := by
  have h1 : s.dropWhile isPySpace <:+ s := List.dropWhile_suffix isPySpace
  have h2 : (s.dropWhile isPySpace).reverse.dropWhile isPySpace <:+
      (s.dropWhile isPySpace).reverse := List.dropWhile_suffix isPySpace
  have h3 : ((s.dropWhile isPySpace).reverse.dropWhile isPySpace).reverse <+:
      s.dropWhile isPySpace := by
    have h4 := List.reverse_prefix.mpr h2
    simpa using h4
  exact h3.isInfix.trans h1.isInfix

theorem joinLines_pyLower (ls : List (List Char)) :
    pyLower (joinLines ls) = joinLines (ls.map pyLower) := by
  induction ls with
  | nil => rfl
  | cons l ls ih =>
    cases ls with
    | nil => rfl
    | cons l2 rest =>
      simp only [joinLines, List.map_cons, pyLower, List.map_append] at *
      simp [ih]

theorem pySplitlinesGo_sound (s acc : List Char) :
    ∀ l : List Char, l ∈ pySplitlinesGo s acc → l <:+: acc.reverse ++ s := by
  have H : ∀ (n : Nat) (s acc : List Char), s.length ≤ n →
      ∀ l, l ∈ pySplitlinesGo s acc → l <:+: acc.reverse ++ s := by
    intro n
    induction n with
    | zero =>
      intro s acc hlen l hl
      have hs : s = [] := List.length_eq_zero.mp (Nat.le_zero.mp hlen)
      subst hs
      simp only [pySplitlinesGo, List.mem_singleton] at hl
      simp [hl]
    | succ n ih =>
      intro s acc hlen l hl
      cases s with
      | nil =>
        simp only [pySplitlinesGo, List.mem_singleton] at hl
        simp [hl]
      | cons c rest =>
        rw [pySplitlinesGo.eq_def] at hl
        simp only [] at hl
        by_cases hbr : isLineBreakChar c = true
        · rw [if_pos hbr] at hl
          by_cases hpair : c = '\r' ∧ rest.head? = some '\n'
          · rw [if_pos hpair] at hl
            cases rest with
            | nil => simp at hpair
            | cons r rest2 =>
              have hl2 : l ∈ (if rest2.isEmpty = true then [acc.reverse]
                  else acc.reverse :: pySplitlinesGo rest2 []) := hl
              clear hl
              by_cases hemp : rest2.isEmpty = true
              · rw [if_pos hemp] at hl2
                simp only [List.mem_singleton] at hl2
                exact hl2 ▸ (List.prefix_append _ _).isInfix
              · rw [if_neg hemp] at hl2
                rcases List.mem_cons.mp hl2 with h1 | h1
                · exact h1 ▸ (List.prefix_append _ _).isInfix
                · have h2 := ih rest2 [] (by simp at hlen ⊢; omega) l h1
                  simp only [List.reverse_nil, List.nil_append] at h2
                  have hsuf : rest2 <:+ acc.reverse ++ c :: r :: rest2 :=
                    ((List.suffix_cons r rest2).trans
                      (List.suffix_cons c (r :: rest2))).trans
                      (List.suffix_append acc.reverse (c :: r :: rest2))
                  exact h2.trans hsuf.isInfix
          · rw [if_neg hpair] at hl
            by_cases hemp : rest.isEmpty = true
            · rw [if_pos hemp] at hl
              simp only [List.mem_singleton] at hl
              exact hl ▸ (List.prefix_append _ _).isInfix
            · rw [if_neg hemp] at hl
              rcases List.mem_cons.mp hl with h1 | h1
              · exact h1 ▸ (List.prefix_append _ _).isInfix
              · have h2 := ih rest [] (by simp at hlen ⊢; omega) l h1
                simp only [List.reverse_nil, List.nil_append] at h2
                have hsuf : rest <:+ acc.reverse ++ c :: rest :=
                  (List.suffix_cons c rest).trans
                    (List.suffix_append acc.reverse (c :: rest))
                exact h2.trans hsuf.isInfix
        · rw [if_neg hbr] at hl
          have h2 := ih rest (c :: acc) (by simp at hlen ⊢; omega) l hl
          simpa using h2
  exact H s.length s acc (Nat.le_refl _)

theorem pySplitlines_sound (s l : List Char) (hl : l ∈ pySplitlines s) :
    l <:+: s := by
  cases s with
  | nil => simp [pySplitlines] at hl
  | cons c rest =>
    have h := pySplitlinesGo_sound (c :: rest) [] l hl
    simpa using h

theorem forbidden_terms_ok (A : Agent) :
    ∀ t ∈ FORBIDDEN_BY_AGENT A, t ≠ [] ∧ '\n' ∉ t := by
  cases A <;> decide

theorem forbidden_lower_fixed (A : Agent) :
    (FORBIDDEN_BY_AGENT A).map pyLower = FORBIDDEN_BY_AGENT A := by
  cases A <;> decide

theorem no_violation_in_cleaned (A : Agent) (text : List Char) :
    ∀ t ∈ FORBIDDEN_BY_AGENT A,
      ¬ t <:+: pyLower (remove_forbidden_lines A text).1 := by
  intro t ht hinf
  obtain ⟨hne, hnl⟩ := forbidden_terms_ok A t ht
  simp only [remove_forbidden_lines] at hinf
  have h1 : t <:+: pyLower (joinLines ((pySplitlines text).filter
      (fun ln => !(((FORBIDDEN_BY_AGENT A).map pyLower).any
        (fun term => decide (term <:+: pyLower ln)))))) :=
    hinf.trans (List.IsInfix.map Char.toLower (pyStrip_infix_self _))
  rw [joinLines_pyLower] at h1
  rcases infix_of_joinLines hne hnl h1 with ⟨l', hl', h2⟩
  rcases List.mem_map.mp hl' with ⟨ln, hln, rfl⟩
  have h3 := List.of_mem_filter hln
  simp only [Bool.not_eq_true', List.any_eq_false, decide_eq_false_iff_not] at h3
  rw [forbidden_lower_fixed] at h3
  exact absurd h2 (by simpa using h3 t ht)

theorem stripFences_of_no_fence {s : List Char} (h : findSub fence s = none) :
    stripFences s = s := by
  rw [stripFences]
  split
  · rfl
  · rename_i i heq
    rw [h] at heq
    cases heq

theorem find_violations_nil (a : Agent) : find_violations a [] = [] := by
  cases a <;> decide

/-! Claim theorems. -/

/-- C4: the ownership sanitizer is idempotent — applying
`remove_forbidden_lines` to its own output deletes no further lines, and
`find_violations` on the sanitized output always returns the empty set. -/
theorem c4_sanitizer_idempotent (A : Agent) (text : List Char) :
    (remove_forbidden_lines A (remove_forbidden_lines A text).1).2 = [] ∧
    find_violations A (remove_forbidden_lines A text).1 = [] := by
  have hmain := no_violation_in_cleaned A text
  constructor
  · show ((pySplitlines (remove_forbidden_lines A text).1).filter _) = []
    rw [List.filter_eq_nil_iff]
    intro ln hln hany
    simp only [List.any_eq_true, decide_eq_true_eq] at hany
    rcases hany with ⟨term, hterm, hinf⟩
    rw [forbidden_lower_fixed] at hterm
    have hlninf : ln <:+: (remove_forbidden_lines A text).1 :=
      pySplitlines_sound _ _ hln
    exact hmain term hterm (hinf.trans (List.IsInfix.map Char.toLower hlninf))
  · rw [find_violations]
    have hfilter : (FORBIDDEN_BY_AGENT A).filter
        (fun term => decide (term <:+: pyLower (remove_forbidden_lines A text).1)) = [] := by
      rw [List.filter_eq_nil_iff]
      intro term hterm hdec
      exact hmain term hterm (of_decide_eq_true hdec)
    rw [hfilter]
    rfl

/-- C7: the retriever partitions the ranked results by role, truncates the
transcript partition to 30 and the agent-reference partition to 10 while
preserving the ranking order within each partition (each selected partition
is a sublist of the ranked input), and concatenates transcript results
before agent-reference results. -/
theorem c7_retriever_partition (all_docs : List Doc) :
    rag_selected all_docs =
      (all_docs.filter (fun d => decide (d.type = "transcript".data))).take 30 ++
      (all_docs.filter (fun d => decide (d.type = "agent".data))).take 10 ∧
    ((all_docs.filter (fun d => decide (d.type = "transcript".data))).take 30).Sublist all_docs ∧
    ((all_docs.filter (fun d => decide (d.type = "agent".data))).take 10).Sublist all_docs ∧
    ((all_docs.filter (fun d => decide (d.type = "transcript".data))).take 30).length ≤ 30 ∧
    ((all_docs.filter (fun d => decide (d.type = "agent".data))).take 10).length ≤ 10 ∧
    ((all_docs.filter (fun d => decide (d.type = "transcript".data))).take 30).all
      (fun d => decide (d.type = "transcript".data)) = true ∧
    ((all_docs.filter (fun d => decide (d.type = "agent".data))).take 10).all
      (fun d => decide (d.type = "agent".data)) = true := by
  refine ⟨rfl, ?_, ?_, ?_, ?_, ?_, ?_⟩
  · exact (List.take_sublist _ _).trans (List.filter_sublist _)
  · exact (List.take_sublist _ _).trans (List.filter_sublist _)
  · simp [List.length_take]
  · simp [List.length_take]
  · rw [List.all_eq_true]
    intro d hd
    have hd2 : d ∈ all_docs.filter (fun d => decide (d.type = "transcript".data)) :=
      (List.take_sublist 30 _).subset hd
    exact (List.mem_filter.mp hd2).2
  · rw [List.all_eq_true]
    intro d hd
    have hd2 : d ∈ all_docs.filter (fun d => decide (d.type = "agent".data)) :=
      (List.take_sublist 10 _).subset hd
    exact (List.mem_filter.mp hd2).2

/-- C9: company-info text never reaches the classifier evidence — every
chunk derived from the company-info section carries type "company", and no
document of type "company" survives the role filter of `rag_chain`. -/
theorem c9_company_docs_excluded (splitText : List Char → List (List Char))
    (info : List Char) (all_docs : List Doc) :
    (split_into_chunks splitText [companySection info]).all
      (fun d => decide (d.type = "company".data)) = true ∧
    (rag_selected all_docs).all
      (fun d => decide (d.type ≠ "company".data)) = true := by
  constructor
  · rw [List.all_eq_true]
    intro d hd
    simp only [split_into_chunks, companySection, List.flatMap_cons,
      List.flatMap_nil, List.append_nil, List.mem_map] at hd
    rcases hd with ⟨chunk, _, rfl⟩
    simp
  · rw [List.all_eq_true]
    intro d hd
    rcases List.mem_append.mp hd with h1 | h1
    · have hd2 : d ∈ all_docs.filter (fun d => decide (d.type = "transcript".data)) :=
        (List.take_sublist 30 _).subset h1
      have h2 : d.type = "transcript".data :=
        of_decide_eq_true (List.mem_filter.mp hd2).2
      simp only [decide_eq_true_eq, h2]
      decide
    · have hd2 : d ∈ all_docs.filter (fun d => decide (d.type = "agent".data)) :=
        (List.take_sublist 10 _).subset h1
      have h2 : d.type = "agent".data :=
        of_decide_eq_true (List.mem_filter.mp hd2).2
      simp only [decide_eq_true_eq, h2]
      decide

/-- C10: the persisted-index recovery of `generate_agent_module` can never
succeed: `load_faiss_index` is among the names `app.py` imports from
`processor`, it is not among the names `processor.py` defines, and the
cache-miss branch that would call it produces an error — never a module and
never a restored session. -/
theorem c10_recovery_branch_dead :
    "load_faiss_index" ∈ app_processor_import_names ∧
    "load_faiss_index" ∉ processor_def_names ∧
    ∀ (agent_name : List Char) (pp : Option Json) (force : Bool)
      (rag : List Char),
      generate_agent_module none true agent_name pp force rag =
        GenResult.serverError := by
  refine ⟨by decide, by decide, ?_⟩
  intro agent_name pp force rag
  rfl

/-- C1 (modelled from the spec): the evidence-threshold rule forces every
low-priority agent marked eligible with fewer than 2 evidence snippets to
ineligible with the fixed reason overwritten, and it only ever downgrades —
any agent eligible after the rule was already eligible before it. -/
theorem c1_evidence_threshold (low_priority : List Agent)
    (elig : Agent → EligibilityRecord) (a : Agent) :
    (a ∈ low_priority → (elig a).eligible = true →
      (elig a).evidence.length < 2 →
      (applyEvidenceThreshold low_priority elig a).eligible = false ∧
      (applyEvidenceThreshold low_priority elig a).reason = lowEvidenceReason) ∧
    ((applyEvidenceThreshold low_priority elig a).eligible = true →
      (elig a).eligible = true) := by
  constructor
  · intro h1 h2 h3
    have hc : a ∈ low_priority ∧ (elig a).eligible = true ∧
        (elig a).evidence.length < 2 := ⟨h1, h2, h3⟩
    rw [applyEvidenceThreshold]
    simp [if_pos hc]
  · intro h
    by_cases hc : a ∈ low_priority ∧ (elig a).eligible = true ∧
        (elig a).evidence.length < 2
    · exact hc.2.1
    · rw [applyEvidenceThreshold] at h
      simpa only [if_neg hc] using h

/-- Witness for C1 at a concrete input: ASSET is low-priority, eligible,
with a single evidence snippet, and gets downgraded with the fixed reason. -/
theorem c1_evidence_threshold_witness :
    (applyEvidenceThreshold [Agent.ASSET]
        (fun _ => { eligible := true, reason := "ok".data,
                    evidence := ["quote".data], confidence := 1,
                    exclusion_reason := [] }) Agent.ASSET).eligible = false ∧
    (applyEvidenceThreshold [Agent.ASSET]
        (fun _ => { eligible := true, reason := "ok".data,
                    evidence := ["quote".data], confidence := 1,
                    exclusion_reason := [] }) Agent.ASSET).reason
      = lowEvidenceReason :=
  (c1_evidence_threshold [Agent.ASSET] _ Agent.ASSET).1
    (by decide) rfl (by decide)

/-- C2 (modelled from the spec): the coverage score lies in [0,1], equals 0
on an empty pain-point list, and on a nonempty list equals the fraction of
pain points mapped to at least one eligible agent, rounded to 3 decimals. -/
theorem c2_coverage_score_bounds (pain_points : List (List Char))
    (mapping : List Char → List Agent)
    (elig : Agent → EligibilityRecord) :
    0 ≤ coverage_score pain_points mapping elig ∧
    coverage_score pain_points mapping elig ≤ 1 ∧
    (pain_points = [] → coverage_score pain_points mapping elig = 0) ∧
    (pain_points ≠ [] →
      coverage_score pain_points mapping elig =
        round3 ((pain_points.countP
            (fun p => (mapping p).any (fun a => (elig a).eligible)) : ℚ) /
          (pain_points.length : ℚ))) := by
  by_cases hemp : pain_points.isEmpty = true
  · have he : pain_points = [] := List.isEmpty_iff.mp hemp
    rw [coverage_score, if_pos hemp]
    refine ⟨le_refl 0, by norm_num, fun _ => rfl, fun hne => absurd he hne⟩
  · have hne : pain_points ≠ [] := fun h => hemp (by simp [h])
    have hlen : 0 < (pain_points.length : ℚ) := by
      have := List.length_pos.mpr hne
      exact_mod_cast this
    set n : ℚ := (pain_points.countP
      (fun p => (mapping p).any (fun a => (elig a).eligible)) : ℚ) with hn
    have hn0 : 0 ≤ n := by positivity
    have hq0 : 0 ≤ n / (pain_points.length : ℚ) := by positivity
    have hcle : pain_points.countP
        (fun p => (mapping p).any (fun a => (elig a).eligible)) ≤
        pain_points.length := List.countP_le_length _
    have hq1 : n / (pain_points.length : ℚ) ≤ 1 := by
      rw [div_le_one hlen, hn]
      exact_mod_cast hcle
    rw [coverage_score, if_neg hemp]
    refine ⟨?_, ?_, fun h => absurd h hne, fun _ => rfl⟩
    · rw [round3]
      have hr : (0 : ℤ) ≤ round (n / (pain_points.length : ℚ) * 1000) := by
        rw [round_eq]
        apply Int.floor_nonneg.mpr
        positivity
      have : (0 : ℚ) ≤ (round (n / (pain_points.length : ℚ) * 1000) : ℚ) :=
        by exact_mod_cast hr
      positivity
    · rw [round3]
      have hr : round (n / (pain_points.length : ℚ) * 1000) ≤ 1000 := by
        rw [round_eq]
        have hlt : n / (pain_points.length : ℚ) * 1000 + 1 / 2 <
            ((1001 : ℤ) : ℚ) := by
          push_cast
          nlinarith
        have hfl := Int.floor_lt.mpr hlt
        omega
      rw [div_le_one (by norm_num : (0 : ℚ) < 1000)]
      exact_mod_cast hr

/-- Witness for C2 at concrete inputs: the empty pain-point list scores 0
and satisfies the lower bound. -/
theorem c2_coverage_score_bounds_witness :
    coverage_score [] (fun _ => [])
        (fun _ => { eligible := false, reason := [], evidence := [],
                    confidence := 0, exclusion_reason := [] }) = 0 ∧
    0 ≤ coverage_score [] (fun _ => [])
        (fun _ => { eligible := false, reason := [], evidence := [],
                    confidence := 0, exclusion_reason := [] }) :=
  ⟨(c2_coverage_score_bounds [] _ _).2.2.1 rfl,
   (c2_coverage_score_bounds [] _ _).1⟩

/-- C3: (code bug) the module-generation endpoint applies no eligibility
gate: with a cached session whose matched agents are only CARE, a request
for HYPE without `force` is answered with a module instead of being
rejected, and setting `force` changes nothing at all. -/
theorem c3_no_eligibility_gate :
    generate_agent_module (some c3entry) false "HYPE".data none false
        "Improve outreach speed".data
      = GenResult.module "Improve outreach speed".data ∧
    generate_agent_module (some c3entry) false "HYPE".data none true
        "Improve outreach speed".data
      = generate_agent_module (some c3entry) false "HYPE".data none false
        "Improve outreach speed".data := by
  have hsf : stripFences "Improve outreach speed".data
      = "Improve outreach speed".data :=
    stripFences_of_no_fence (by decide)
  have hsm : strip_meta "Improve outreach speed".data
      = "Improve outreach speed".data := by
    rw [strip_meta, hsf]
    decide
  constructor
  · show (let result := strip_meta "Improve outreach speed".data
      if pyStrip result = safe_empty then GenResult.module []
      else
        let cleaned := (remove_forbidden_lines Agent.HYPE result).1
        if !(find_violations Agent.HYPE cleaned).isEmpty then GenResult.module []
        else GenResult.module cleaned)
      = GenResult.module "Improve outreach speed".data
    rw [hsm]
    decide
  · rfl

/-- C5: (counterexample) the sentinel check runs before forbidden-line
filtering, so when filtering reduces the output to exactly the sentinel —
here an invoice line followed by the sentinel, requested for HYPE — the
endpoint returns the sentinel text as the module, not the empty string. -/
theorem c5_sentinel_counterexample :
    (remove_forbidden_lines Agent.HYPE (strip_meta c5badRag)).1 = safe_empty ∧
    generate_agent_module
        (some { index := 0, transcript_path := [], agent_path := [],
                company_info := [] })
        false "HYPE".data none false c5badRag
      = GenResult.module safe_empty ∧
    GenResult.module safe_empty ≠ GenResult.module [] := by
  have hsf : stripFences c5badRag = c5badRag :=
    stripFences_of_no_fence (by decide)
  have hsm : strip_meta c5badRag = c5badRag := by
    rw [strip_meta, hsf]
    decide
  refine ⟨?_, ?_, by decide⟩
  · rw [hsm]
    decide
  · show (let result := strip_meta c5badRag
      if pyStrip result = safe_empty then GenResult.module []
      else
        let cleaned := (remove_forbidden_lines Agent.HYPE result).1
        if !(find_violations Agent.HYPE cleaned).isEmpty then GenResult.module []
        else GenResult.module cleaned) = GenResult.module safe_empty
    rw [hsm]
    decide

/-- C5 amended: when the generation output is empty or consists solely of
the fixed sentinel before forbidden-line filtering, or when filtering
leaves an empty output, the endpoint returns an empty module text and never
an error; the sentinel check itself happens before filtering. -/
theorem c5_sentinel_empty_module (c : CacheEntry) (savedDirExists : Bool)
    (agent_name : List Char) (a : Agent) (pp : Option Json) (force : Bool)
    (rag : List Char) (ha : toAgent agent_name = some a) :
    ((strip_meta rag = [] ∨ pyStrip (strip_meta rag) = safe_empty) →
      generate_agent_module (some c) savedDirExists agent_name pp force rag =
        GenResult.module []) ∧
    ((remove_forbidden_lines a (strip_meta rag)).1 = [] →
      generate_agent_module (some c) savedDirExists agent_name pp force rag =
        GenResult.module []) := by
  have hshow : generate_agent_module (some c) savedDirExists agent_name pp
      force rag =
      (let result := strip_meta rag
       if pyStrip result = safe_empty then GenResult.module []
       else
         let cleaned := (remove_forbidden_lines a result).1
         if !(find_violations a cleaned).isEmpty then GenResult.module []
         else GenResult.module cleaned) := by
    show (match toAgent agent_name with
      | none => GenResult.clientError ("Invalid agent name: ".data ++ agent_name)
      | some agent =>
        let result := strip_meta rag
        if pyStrip result = safe_empty then GenResult.module []
        else
          let cleaned := (remove_forbidden_lines agent result).1
          if !(find_violations agent cleaned).isEmpty then GenResult.module []
          else GenResult.module cleaned) = _
    rw [ha]
  constructor
  · intro h
    rw [hshow]
    rcases h with h1 | h2
    · rw [h1]
      have hrm : remove_forbidden_lines a ([] : List Char) = ([], []) := rfl
      simp only [hrm, find_violations_nil a]
      decide
    · simp only [h2]
      simp
  · intro hcl
    rw [hshow]
    by_cases hs : pyStrip (strip_meta rag) = safe_empty
    · simp only [hs]
      simp
    · simp only [if_neg hs, hcl, find_violations_nil a]
      decide

/-- Witness for C5 at a concrete input: a generation round trip that returns
exactly the sentinel yields an empty module. -/
theorem c5_sentinel_empty_module_witness :
    generate_agent_module
        (some { index := 0, transcript_path := [], agent_path := [],
                company_info := [] })
        false "CARE".data none false safe_empty = GenResult.module [] := by
  apply (c5_sentinel_empty_module
    { index := 0, transcript_path := [], agent_path := [], company_info := [] }
    false "CARE".data Agent.CARE none false safe_empty rfl).1
  right
  rw [strip_meta, stripFences_of_no_fence (by decide)]
  decide

/-- C6: the result parser first returns any successful direct decode; on
direct failure it decodes the substring from the first opening brace to the
last closing brace; when every decode fails it returns `none` — an ordinary
value, not an exception — and the caller then derives an empty record with
no pain points and no agents. -/
theorem c6_parser_fallback (loads : List Char → Option Json)
    (text : List Char) :
    (∀ v, loads text = some v → safe_json_extract loads text = some v) ∧
    (∀ s e, loads text = none → pyFind text '\x7b' = some s →
      pyRFind text '\x7d' = some e → s < e →
      safe_json_extract loads text = loads (pySlice text s (e + 1))) ∧
    ((∀ sub, loads sub = none) → safe_json_extract loads text = none) ∧
    (safe_json_extract loads text = none →
      orEmptyObj (safe_json_extract loads text) = Json.obj [] ∧
      getListField [] "pain_points".data = Json.arr [] ∧
      getListField [] "agents".data = Json.arr []) := by
  refine ⟨?_, ?_, ?_, ?_⟩
  · intro v hv
    rw [safe_json_extract, hv]
  · intro s e h hf hr hse
    rw [safe_json_extract, h, hf, hr]
    simp only [if_pos hse]
  · intro hall
    rw [safe_json_extract, hall text]
    cases hfv : pyFind text '\x7b' with
    | none => rfl
    | some s =>
      cases hfr : pyRFind text '\x7d' with
      | none => rfl
      | some e =>
        by_cases hse : s < e
        · simp only [if_pos hse, hall]
        · simp only [if_neg hse]
  · intro h
    rw [h]
    exact ⟨rfl, rfl, rfl⟩

/-- Witness for C6: the spec scenario — a record wrapped in prose is
recovered through the brace-substring fallback. -/
theorem c6_parser_fallback_witness :
    safe_json_extract c6loads c6raw = some c6parsed := by
  have h := (c6_parser_fallback c6loads c6raw).2.1 20 57 rfl
    (by decide) (by decide) (by decide)
  rw [h]
  rfl

/-- C8: (counterexample) ingestion is not all-or-nothing — a classifier
failure after the index is built produces an error response yet leaves a
partial session entry (no pain points) behind in the store. -/
theorem c8_ingestion_not_atomic_counterexample :
    (match_agents Store.empty "s".data "t.pdf".data "a.pdf".data []
        (some 0) true none (fun _ => none)).2 = MatchResponse.serverError ∧
    (match_agents Store.empty "s".data "t.pdf".data "a.pdf".data []
        (some 0) true none (fun _ => none)).1 "s".data =
      some (preRagEntry 0 "t.pdf".data "a.pdf".data [] "s".data true) ∧
    (preRagEntry 0 "t.pdf".data "a.pdf".data [] "s".data true).pain_points
      = none :=
  ⟨rfl, rfl, rfl⟩

/-- C8 amended: ingestion is atomic only up to index construction — a
failure before the session-store write (through `build_faiss_index`) leaves
the store unchanged, but a classifier failure after the write leaves a
partial entry (index, paths, company info; no pain points, no matched
agents, no rationale) under the session id, and a fully successful call
overwrites it with the complete entry. -/
theorem c8_ingestion_partial_on_rag_failure (store : Store)
    (sid tp ap ci : List Char) (saveOk : Bool) (idx : Nat)
    (ragOutcome : Option (List Char)) (loads : List Char → Option Json) :
    (match_agents store sid tp ap ci none saveOk ragOutcome loads =
      (store, MatchResponse.serverError)) ∧
    ((match_agents store sid tp ap ci (some idx) saveOk none loads).2 =
        MatchResponse.serverError ∧
      (match_agents store sid tp ap ci (some idx) saveOk none loads).1 sid =
        some (preRagEntry idx tp ap ci sid saveOk) ∧
      (preRagEntry idx tp ap ci sid saveOk).pain_points = none) ∧
    (∀ result_text fields,
      orEmptyObj (safe_json_extract loads result_text) = Json.obj fields →
      (match_agents store sid tp ap ci (some idx) saveOk (some result_text)
          loads).1 sid =
        some { preRagEntry idx tp ap ci sid saveOk with
               pain_points := some (getListField fields "pain_points".data),
               matched_agents := some (getListField fields "agents".data),
               rationale := some (getObjField fields "rationale".data) }) := by
  refine ⟨rfl, ⟨rfl, ?_, ?_⟩, ?_⟩
  · show Store.insert store sid _ sid = _
    rw [Store.insert, if_pos rfl]
    cases saveOk <;> rfl
  · cases saveOk <;> rfl
  · intro result_text fields hf
    show (match orEmptyObj (safe_json_extract loads result_text) with
      | Json.obj fs =>
        (Store.insert (Store.insert store sid
            (if saveOk then
              { index := idx, transcript_path := tp, agent_path := ap,
                company_info := ci, save_dir := some (saveDirFor sid) }
             else
              { index := idx, transcript_path := tp, agent_path := ap,
                company_info := ci })) sid
          { (if saveOk then
              { index := idx, transcript_path := tp, agent_path := ap,
                company_info := ci, save_dir := some (saveDirFor sid) }
             else
              { index := idx, transcript_path := tp, agent_path := ap,
                company_info := ci } : CacheEntry) with
            pain_points := some (getListField fs "pain_points".data),
            matched_agents := some (getListField fs "agents".data),
            rationale := some (getObjField fs "rationale".data) },
         MatchResponse.ok sid (getListField fs "pain_points".data)
           (getListField fs "agents".data) (getObjField fs "rationale".data)
           result_text)
      | _ => (Store.insert store sid
          (if saveOk then
            { index := idx, transcript_path := tp, agent_path := ap,
              company_info := ci, save_dir := some (saveDirFor sid) }
           else
            { index := idx, transcript_path := tp, agent_path := ap,
              company_info := ci }), MatchResponse.serverError)).1 sid = _
    rw [hf]
    show Store.insert _ sid _ sid = _
    rw [Store.insert, if_pos rfl]
    cases saveOk <;> rfl

/-- Witness for C8 at concrete inputs: a successful ingestion stores the
complete entry for its session id. -/
theorem c8_ingestion_partial_on_rag_failure_witness :
    (match_agents Store.empty "w".data "t".data "a".data [] (some 1) false
        (some "x".data) (fun _ => none)).1 "w".data =
      some { preRagEntry 1 "t".data "a".data [] "w".data false with
             pain_points := some (getListField [] "pain_points".data),
             matched_agents := some (getListField [] "agents".data),
             rationale := some (getObjField [] "rationale".data) } :=
  (c8_ingestion_partial_on_rag_failure Store.empty "w".data "t".data "a".data
    [] false 1 (some "x".data) (fun _ => none)).2.2 "x".data [] rfl

end RagSpec
